import Mathlib

/-!
Verification of the note collection state manager of a personal notes web
application.  The application exists in two variants that share the same UI:

* an adapter-backed variant (`SupaApp` below) whose CRUD operations go
  through a remote persistence adapter (`fetchNotes` / `createNote` /
  `updateNote` / `deleteNote`); each adapter call is modelled by an explicit
  `Except` result parameter, since the store only observes the resolved
  promise;
* a local-storage variant (`LocalApp` below) whose notes live in the
  component and are mirrored to browser storage; `Date.now()` is modelled by
  an explicit `now : Nat` parameter, and the id `String(now)` by
  `toString now`.

Derived views (`filteredNotes`, `selectedNote`) are pure functions of the
state, exactly as the reactive statements in the source recompute them.
-/

/- ### Decimal rendering of `Nat` is injective

The local-storage variant assigns note ids as `String(Date.now())`, i.e.
`toString now`.  Distinctness of ids generated at distinct times needs the
injectivity of decimal rendering, proved here by exhibiting a decoder.
-/

/-- Numeric value of a decimal digit character; left inverse of
`Nat.digitChar` on digits. -/
def charVal (c : Char) : Nat := c.toNat - 48

/-- Decode a list of decimal digit characters into the number they denote. -/
def decodeChars (l : List Char) : Nat :=
  l.foldl (fun acc c => acc * 10 + charVal c) 0

theorem charVal_digitChar : ∀ d : Nat, d < 10 → charVal (Nat.digitChar d) = d := by
  decide

theorem decodeChars_append_digit (l : List Char) (c : Char) :
    decodeChars (l ++ [c]) = decodeChars l * 10 + charVal c := by
  simp [decodeChars, List.foldl_append]

theorem toDigitsCore_acc (b : Nat) :
    ∀ (fuel n : Nat) (ds : List Char),
      Nat.toDigitsCore b fuel n ds = Nat.toDigitsCore b fuel n [] ++ ds
  | 0, _, _ => by simp [Nat.toDigitsCore]
  | fuel + 1, n, ds => by
    simp only [Nat.toDigitsCore]
    by_cases h : n / b = 0
    · simp [h]
    · simp only [if_neg h]
      rw [toDigitsCore_acc b fuel (n / b) (Nat.digitChar (n % b) :: ds),
        toDigitsCore_acc b fuel (n / b) [Nat.digitChar (n % b)]]
      simp

theorem decode_toDigitsCore :
    ∀ (fuel n : Nat), n < fuel → decodeChars (Nat.toDigitsCore 10 fuel n []) = n
  | fuel + 1, n, h => by
    simp only [Nat.toDigitsCore]
    by_cases h0 : n / 10 = 0
    · have hn : n < 10 := by
        have := Nat.div_add_mod n 10
        have hm : n % 10 < 10 := Nat.mod_lt _ (by norm_num)
        omega
      simp only [if_pos h0, decodeChars, List.foldl]
      rw [charVal_digitChar (n % 10) (Nat.mod_lt _ (by norm_num))]
      simp [Nat.mod_eq_of_lt hn]
    · have hpos : 0 < n := by
        rcases Nat.eq_zero_or_pos n with h1 | h1
        · exact absurd (by simp [h1]) h0
        · exact h1
      have hlt : n / 10 < fuel := by
        have h2 : n / 10 < n := Nat.div_lt_self hpos (by norm_num)
        omega
      simp only [if_neg h0]
      rw [toDigitsCore_acc, decodeChars_append_digit,
        decode_toDigitsCore fuel (n / 10) hlt,
        charVal_digitChar (n % 10) (Nat.mod_lt _ (by norm_num))]
      have := Nat.div_add_mod n 10
      omega

theorem decode_toDigits (n : Nat) : decodeChars (Nat.toDigits 10 n) = n :=
  decode_toDigitsCore (n + 1) n (Nat.lt_succ_self n)

theorem natRepr_injective : Function.Injective Nat.repr := by
  intro m n h
  have hd : Nat.toDigits 10 m = Nat.toDigits 10 n := by
    have := congrArg String.data h
    simpa [Nat.repr, List.asString] using this
  have := congrArg decodeChars hd
  simpa [decode_toDigits] using this

theorem natToString_injective : Function.Injective (fun n : Nat => toString n) := by
  intro m n h
  exact natRepr_injective h

/- ### JavaScript string inclusion

`String.prototype.includes`, used by the search filter, modelled directly on
character lists. -/

/-- Whether `sub` is an initial segment of the character list. -/
def strHasPre : List Char → List Char → Bool
  | _, [] => true
  | [], _ :: _ => false
  | c :: cs, d :: ds => c == d && strHasPre cs ds

/-- Whether `sub` occurs contiguously inside the character list. -/
def strIncludesAux (sub : List Char) : List Char → Bool
  | [] => strHasPre [] sub
  | c :: t => strHasPre (c :: t) sub || strIncludesAux sub t

/-- JavaScript `hay.includes(sub)`. -/
def strIncludes (hay sub : String) : Bool :=
  strIncludesAux sub.data hay.data

/-- JavaScript `toLowerCase`, as a character-wise map (the same mapping as
`String.toLower`, stated structurally). -/
def strToLower (s : String) : String :=
  ⟨s.data.map Char.toLower⟩

/-! ## Local-storage variant -/

namespace LocalApp

/-- The `Note` record of the local-storage variant: string id, title,
content, numeric (epoch-millisecond) timestamps. -/
structure Note where
  id : String
  title : String
  content : String
  created : Nat
  updated : Nat
  deriving Repr, DecidableEq

/-- `Partial<Note>` as passed to `updateNote`: every field optional.  An
absent field leaves the note's field unchanged under object spread. -/
structure NotePatch where
  id : Option String := none
  title : Option String := none
  content : Option String := none
  created : Option Nat := none
  updated : Option Nat := none
  deriving Repr, DecidableEq

/-- JavaScript `{...n, ...d}`: fields present in the patch override. -/
def mergeNote (n : Note) (d : NotePatch) : Note :=
  { id := d.id.getD n.id
    title := d.title.getD n.title
    content := d.content.getD n.content
    created := d.created.getD n.created
    updated := d.updated.getD n.updated }

/-- Component state of the local-storage variant: the note list, the
selected id, the editing flag and the search term.  `saveNotes` only mirrors
`notes` to browser storage and does not change this state, so it is not
modelled. -/
structure LocalState where
  notes : List Note
  selectedNoteId : Option String
  editing : Bool
  searchTerm : String
  deriving Repr, DecidableEq

/-- Initial state: empty list, nothing selected, not editing, no filter. -/
def init : LocalState :=
  { notes := [], selectedNoteId := none, editing := false, searchTerm := "" }

/-- `loadNotes` (local variant): replace `notes` by the parsed stored
array, or `[]` when storage holds nothing.  Selection is not touched. -/
def loadNotes (stored : Option (List Note)) (s : LocalState) : LocalState :=
  { s with notes := stored.getD [] }

/-- `createNote` (local variant): build a note with id `String(now)`,
title `"Untitled Note"`, empty content and both timestamps `now`; prepend
it, select it and enter editing. -/
def createNote (now : Nat) (s : LocalState) : LocalState :=
  let note : Note :=
    { id := toString now
      title := "Untitled Note"
      content := ""
      created := now
      updated := now }
  { s with notes := note :: s.notes, selectedNoteId := some note.id, editing := true }

/-- `updateNote` (local variant): map over the list, replacing every note
whose id matches by the spread `{...n, ...updatedData, updated: Date.now()}`. -/
def updateNote (now : Nat) (id : String) (d : NotePatch) (s : LocalState) : LocalState :=
  { s with
    notes := s.notes.map fun n =>
      if n.id == id then { mergeNote n d with updated := now } else n }

/-- `deleteNote` (local variant): gated on the `confirm` dialog.  When
confirmed, drop the matching note; if it was selected, select the new first
note or nothing. -/
def deleteNote (confirmed : Bool) (id : String) (s : LocalState) : LocalState :=
  if confirmed then
    let wasSelected := s.selectedNoteId == some id
    let notes2 := s.notes.filter fun n => n.id != id
    let sel :=
      if wasSelected then
        match notes2 with
        | [] => none
        | n :: _ => some n.id
      else s.selectedNoteId
    { s with notes := notes2, selectedNoteId := sel }
  else s

/-- `selectNote`: set the selection and leave editing mode. -/
def selectNote (id : String) (s : LocalState) : LocalState :=
  { s with selectedNoteId := some id, editing := false }

/-- The search input is bound to `searchTerm`; changing it replaces the
filter string and nothing else. -/
def setSearchTerm (t : String) (s : LocalState) : LocalState :=
  { s with searchTerm := t }

/-- Whether a note matches the search term: its title or content contains
the term as a case-insensitive substring. -/
def noteMatches (term : String) (n : Note) : Bool :=
  strIncludes (strToLower n.title) (strToLower term) ||
  strIncludes (strToLower n.content) (strToLower term)

/-- The reactive `filteredNotes`: the full list when the term is empty
(JavaScript falsy), otherwise the notes matching the term. -/
def filteredNotes (term : String) (notes : List Note) : List Note :=
  if term == "" then notes else notes.filter (noteMatches term)

/-- The reactive `selectedNote`: `notes.find(n => n.id === selectedNoteId) ?? null`. -/
def selectedNote (s : LocalState) : Option Note :=
  s.notes.find? fun n => some n.id == s.selectedNoteId

/-- A create/delete intent of the local variant, for whole-trace claims:
`create` carries the `Date.now()` value it observes, `delete` the outcome of
the confirmation dialog and the target id. -/
inductive LOp where
  | create (now : Nat)
  | delete (confirmed : Bool) (id : String)
  deriving Repr, DecidableEq

/-- One intent applied to the state. -/
def lstep (s : LocalState) : LOp → LocalState
  | .create now => createNote now s
  | .delete c id => deleteNote c id s

/-- Run a sequence of create/delete intents from a state. -/
def lrunFrom (s : LocalState) (ops : List LOp) : LocalState :=
  ops.foldl lstep s

/-- Run a sequence of create/delete intents from the empty store. -/
def lrun (ops : List LOp) : LocalState :=
  lrunFrom init ops

/-- The `Date.now()` values observed by the create intents of a trace. -/
def ltimes : List LOp → List Nat
  | [] => []
  | .create now :: t => now :: ltimes t
  | .delete _ _ :: t => ltimes t

end LocalApp

/-! ## Adapter-backed variant -/

namespace SupaApp

/-- The `Note` record exchanged with the persistence adapter: string id,
nullable title/content (the filter uses optional chaining on them), ISO
string timestamps with `created` possibly absent or empty. -/
structure SNote where
  id : String
  title : Option String
  content : Option String
  created : Option String
  updated : String
  deriving Repr, DecidableEq

/-- JavaScript falsiness of a nullable string: null/undefined or `""`. -/
def jsFalsy : Option String → Bool
  | none => true
  | some s => s == ""

/-- The normalisation `loadNotes` applies to each fetched note:
`created: note.created || note.updated`. -/
def normalizeNote (n : SNote) : SNote :=
  { n with created := if jsFalsy n.created then some n.updated else n.created }

/-- Component state of the adapter-backed variant; it additionally tracks
the loading flag and the surfaced error message. -/
structure SupaState where
  notes : List SNote
  selectedNoteId : Option String
  editing : Bool
  searchTerm : String
  loading : Bool
  error : Option String
  deriving Repr, DecidableEq

/-- Initial state: empty list, nothing selected, not editing, no filter,
not loading, no error. -/
def init : SupaState :=
  { notes := [], selectedNoteId := none, editing := false, searchTerm := ""
    loading := false, error := none }

/-- `loadNotes` (adapter variant): set `loading`, clear `error`; on success
replace `notes` by the normalised fetched list and, when the new list is
non-empty and no note is selected, select its first note; on failure set
`error`.  Either way `loading` ends false. -/
def loadNotes (res : Except String (List SNote)) (s : SupaState) : SupaState :=
  let s1 := { s with loading := true, error := none }
  match res with
  | .ok data =>
    let s2 := { s1 with notes := data.map normalizeNote }
    let s3 :=
      match s2.notes, jsFalsy s2.selectedNoteId with
      | n :: _, true => { s2 with selectedNoteId := some n.id }
      | _, _ => s2
    { s3 with loading := false }
  | .error msg => { s1 with error := some msg, loading := false }

/-- `createNote` (adapter variant): set `loading`, clear `error`; on
success prepend the adapter-returned note, select it and enter editing; on
failure set `error` and change nothing else. -/
def createNote (res : Except String SNote) (s : SupaState) : SupaState :=
  let s1 := { s with loading := true, error := none }
  match res with
  | .ok note =>
    { s1 with
      notes := note :: s1.notes
      selectedNoteId := some note.id
      editing := true
      loading := false }
  | .error msg => { s1 with error := some msg, loading := false }

/-- `updateNote` (adapter variant): on success replace every note whose id
matches by the adapter-returned record (`{...n, ...note}` with a complete
record overrides every field); on failure set `error`. -/
def updateNote (res : Except String SNote) (id : String) (s : SupaState) : SupaState :=
  let s1 := { s with loading := true, error := none }
  match res with
  | .ok note =>
    { s1 with
      notes := s1.notes.map fun n => if n.id == id then note else n
      loading := false }
  | .error msg => { s1 with error := some msg, loading := false }

/-- `deleteNote` (adapter variant): returns the new state paired with
whether the adapter delete call was issued.  A declined confirmation
returns before anything happens; on success drop the matching note and
reconcile the selection; on failure set `error`. -/
def deleteNote (confirmed : Bool) (res : Except String Unit) (id : String)
    (s : SupaState) : SupaState × Bool :=
  if !confirmed then (s, false)
  else
    let s1 := { s with loading := true, error := none }
    match res with
    | .ok _ =>
      let wasSelected := s1.selectedNoteId == some id
      let notes2 := s1.notes.filter fun n => n.id != id
      let sel :=
        if wasSelected then
          match notes2 with
          | [] => none
          | n :: _ => some n.id
        else s1.selectedNoteId
      ({ s1 with notes := notes2, selectedNoteId := sel, loading := false }, true)
    | .error msg => ({ s1 with error := some msg, loading := false }, true)

/-- `selectNote`: set the selection and leave editing mode. -/
def selectNote (id : String) (s : SupaState) : SupaState :=
  { s with selectedNoteId := some id, editing := false }

/-- The search input is bound to `searchTerm`. -/
def setSearchTerm (t : String) (s : SupaState) : SupaState :=
  { s with searchTerm := t }

/-- Whether a note matches the search term
(`n.title?.toLowerCase().includes(...) || n.content?.toLowerCase().includes(...)`,
where optional chaining makes a missing field contribute false). -/
def noteMatches (term : String) (n : SNote) : Bool :=
  (match n.title with
   | some ti => strIncludes (strToLower ti) (strToLower term)
   | none => false) ||
  (match n.content with
   | some c => strIncludes (strToLower c) (strToLower term)
   | none => false)

/-- The reactive `filteredNotes` of the adapter variant. -/
def filteredNotes (term : String) (notes : List SNote) : List SNote :=
  if term == "" then notes else notes.filter (noteMatches term)

/-- The reactive `selectedNote` of the adapter variant. -/
def selectedNote (s : SupaState) : Option SNote :=
  s.notes.find? fun n => some n.id == s.selectedNoteId

/-- Modelled from the spec: `supabaseCreateNote` lives in the missing
`$lib/supabaseClient`; per the adapter contract it stores the supplied
fields (title `"Untitled Note"`, empty content, the caller's ISO
timestamps) and returns the record with an adapter-assigned id. -/
def adapterCreate (freshId : String) (nowIso : String) : SNote :=
  { id := freshId
    title := some "Untitled Note"
    content := some ""
    created := some nowIso
    updated := nowIso }

/-- A patch whose values the editor supplies to `updateNote`
(`{title, content}` with plain string values). -/
structure SNotePatch where
  title : Option String := none
  content : Option String := none
  deriving Repr, DecidableEq

/-- Modelled from the spec: `supabaseUpdateNote` lives in the missing
`$lib/supabaseClient`; per the adapter contract it merges the supplied
partial fields into the stored record, refreshes `updated`, and returns
the merged/confirmed record. -/
def adapterUpdate (n : SNote) (d : SNotePatch) (nowIso : String) : SNote :=
  { n with
    title := match d.title with | some v => some v | none => n.title
    content := match d.content with | some v => some v | none => n.content
    updated := nowIso }

/-- A create/delete intent of the adapter variant: `create` carries the
adapter call's outcome, `delete` the confirmation outcome, the adapter
call's outcome and the target id. -/
inductive SOp where
  | create (res : Except String SNote)
  | delete (confirmed : Bool) (res : Except String Unit) (id : String)
  deriving Repr

/-- One intent applied to the state. -/
def sstep (s : SupaState) : SOp → SupaState
  | .create res => createNote res s
  | .delete c res id => (deleteNote c res id s).1

/-- Run a sequence of create/delete intents from a state. -/
def srunFrom (s : SupaState) (ops : List SOp) : SupaState :=
  ops.foldl sstep s

/-- Run a sequence of create/delete intents from the empty store. -/
def srun (ops : List SOp) : SupaState :=
  srunFrom init ops

/-- The ids assigned by the adapter to the successful creates of a trace. -/
def screatedIds : List SOp → List String
  | [] => []
  | .create (.ok n) :: t => n.id :: screatedIds t
  | .create (.error _) :: t => screatedIds t
  | .delete _ _ _ :: t => screatedIds t

end SupaApp

/-! ## Claims -/

/-- C3: when the user declines the delete confirmation, `deleteNote` is a
complete no-op in both variants: the whole state (note list, selection,
search term, editing flag) is unchanged, and in the adapter-backed variant
no adapter delete call is issued. -/
theorem delete_declined_noop (sl : LocalApp.LocalState) (ss : SupaApp.SupaState)
    (idl ids2 : String) (res : Except String Unit) :
    LocalApp.deleteNote false idl sl = sl ∧
    SupaApp.deleteNote false res ids2 ss = (ss, false) :=
  ⟨rfl, rfl⟩

/-- C5: when the adapter create call fails, `createNote` leaves the note
list, the selection and the editing flag unchanged, sets the error message,
and ends with the loading flag cleared. -/
theorem create_failure_frame (s : SupaApp.SupaState) (msg : String) :
    (SupaApp.createNote (.error msg) s).notes = s.notes ∧
    (SupaApp.createNote (.error msg) s).error = some msg ∧
    (SupaApp.createNote (.error msg) s).selectedNoteId = s.selectedNoteId ∧
    (SupaApp.createNote (.error msg) s).editing = s.editing ∧
    (SupaApp.createNote (.error msg) s).loading = false :=
  ⟨rfl, rfl, rfl, rfl, rfl⟩

/-- C2: after a confirmed, adapter-successful delete of the currently
selected note, the selection becomes the id of the first remaining note, or
none when the remaining list is empty — in both variants. -/
theorem delete_selected_reselects_first
    (sl : LocalApp.LocalState) (ss : SupaApp.SupaState) (idl ids2 : String)
    (hl : sl.selectedNoteId = some idl) (hs : ss.selectedNoteId = some ids2) :
    (LocalApp.deleteNote true idl sl).selectedNoteId =
      (match (LocalApp.deleteNote true idl sl).notes with
       | [] => none
       | n :: _ => some n.id) ∧
    ((SupaApp.deleteNote true (.ok ()) ids2 ss).1).selectedNoteId =
      (match ((SupaApp.deleteNote true (.ok ()) ids2 ss).1).notes with
       | [] => none
       | n :: _ => some n.id) := by
  constructor
  · simp only [LocalApp.deleteNote, hl, if_true, beq_self_eq_true]
  · simp only [SupaApp.deleteNote, hs, beq_self_eq_true, Bool.not_true,
      Bool.false_eq_true, if_false, if_true]

/-- C2 witness: the spec scenario — list `[A(id 1), B(id 2)]` with note 1
selected; the confirmed delete of note 1 leaves `[B]` selected as note 2. -/
theorem delete_selected_reselects_first_witness :
    (LocalApp.deleteNote true "1"
        { notes := [{ id := "1", title := "A", content := "", created := 0, updated := 0 },
                    { id := "2", title := "B", content := "", created := 0, updated := 0 }]
          selectedNoteId := some "1", editing := false, searchTerm := "" }).selectedNoteId =
      (match (LocalApp.deleteNote true "1"
        { notes := [{ id := "1", title := "A", content := "", created := 0, updated := 0 },
                    { id := "2", title := "B", content := "", created := 0, updated := 0 }]
          selectedNoteId := some "1", editing := false, searchTerm := "" }).notes with
       | [] => none
       | n :: _ => some n.id) ∧
    ((SupaApp.deleteNote true (.ok ()) "1"
        { notes := [{ id := "1", title := some "A", content := some "", created := none, updated := "" },
                    { id := "2", title := some "B", content := some "", created := none, updated := "" }]
          selectedNoteId := some "1", editing := false, searchTerm := ""
          loading := false, error := none }).1).selectedNoteId =
      (match ((SupaApp.deleteNote true (.ok ()) "1"
        { notes := [{ id := "1", title := some "A", content := some "", created := none, updated := "" },
                    { id := "2", title := some "B", content := some "", created := none, updated := "" }]
          selectedNoteId := some "1", editing := false, searchTerm := ""
          loading := false, error := none }).1).notes with
       | [] => none
       | n :: _ => some n.id) :=
  delete_selected_reselects_first _ _ "1" "1" rfl rfl

/-- C4: with an empty search term `filteredNotes` is the full list; with a
non-empty term it is a sublist of the list (order preserved, the underlying
list untouched) containing a note exactly when the note's title or content
contains the term case-insensitively — in both variants. -/
theorem filtered_notes_exact (t : String) (ns : List LocalApp.Note) (n : LocalApp.Note)
    (ms : List SupaApp.SNote) (m : SupaApp.SNote) (h : t ≠ "") :
    LocalApp.filteredNotes "" ns = ns ∧
    (LocalApp.filteredNotes t ns).Sublist ns ∧
    (n ∈ LocalApp.filteredNotes t ns ↔ n ∈ ns ∧ LocalApp.noteMatches t n = true) ∧
    SupaApp.filteredNotes "" ms = ms ∧
    (SupaApp.filteredNotes t ms).Sublist ms ∧
    (m ∈ SupaApp.filteredNotes t ms ↔ m ∈ ms ∧ SupaApp.noteMatches t m = true) := by
  have ht : (t == "") = false := beq_eq_false_iff_ne.mpr h
  refine ⟨rfl, ?_, ?_, rfl, ?_, ?_⟩
  · simp only [LocalApp.filteredNotes, ht, if_false]
    exact List.filter_sublist ns
  · simp only [LocalApp.filteredNotes, ht, if_false]
    exact List.mem_filter
  · simp only [SupaApp.filteredNotes, ht, if_false]
    exact List.filter_sublist ms
  · simp only [SupaApp.filteredNotes, ht, if_false]
    exact List.mem_filter

/-- C4 witness: searching for `"b"` among two concrete notes keeps exactly
the matching one. -/
theorem filtered_notes_exact_witness :
    (("b" : String) ≠ "") ∧
    (LocalApp.filteredNotes "" [{ id := "1", title := "aBc", content := "", created := 0, updated := 0 },
        { id := "2", title := "x", content := "y", created := 0, updated := 0 }] =
      [{ id := "1", title := "aBc", content := "", created := 0, updated := 0 },
        { id := "2", title := "x", content := "y", created := 0, updated := 0 }] ∧
    (LocalApp.filteredNotes "b" [{ id := "1", title := "aBc", content := "", created := 0, updated := 0 },
        { id := "2", title := "x", content := "y", created := 0, updated := 0 }]).Sublist
      [{ id := "1", title := "aBc", content := "", created := 0, updated := 0 },
        { id := "2", title := "x", content := "y", created := 0, updated := 0 }] ∧
    (({ id := "1", title := "aBc", content := "", created := 0, updated := 0 } : LocalApp.Note) ∈
        LocalApp.filteredNotes "b" [{ id := "1", title := "aBc", content := "", created := 0, updated := 0 },
          { id := "2", title := "x", content := "y", created := 0, updated := 0 }] ↔
      ({ id := "1", title := "aBc", content := "", created := 0, updated := 0 } : LocalApp.Note) ∈
          [{ id := "1", title := "aBc", content := "", created := 0, updated := 0 },
            { id := "2", title := "x", content := "y", created := 0, updated := 0 }] ∧
        LocalApp.noteMatches "b" { id := "1", title := "aBc", content := "", created := 0, updated := 0 } = true) ∧
    SupaApp.filteredNotes "" [{ id := "9", title := some "b", content := none, created := none, updated := "" }] =
      [{ id := "9", title := some "b", content := none, created := none, updated := "" }] ∧
    (SupaApp.filteredNotes "b" [{ id := "9", title := some "b", content := none, created := none, updated := "" }]).Sublist
      [{ id := "9", title := some "b", content := none, created := none, updated := "" }] ∧
    (({ id := "9", title := some "b", content := none, created := none, updated := "" } : SupaApp.SNote) ∈
        SupaApp.filteredNotes "b" [{ id := "9", title := some "b", content := none, created := none, updated := "" }] ↔
      ({ id := "9", title := some "b", content := none, created := none, updated := "" } : SupaApp.SNote) ∈
          [{ id := "9", title := some "b", content := none, created := none, updated := "" }] ∧
        SupaApp.noteMatches "b" { id := "9", title := some "b", content := none, created := none, updated := "" } = true)) :=
  ⟨by decide, filtered_notes_exact "b" _ _ _ _ (by decide)⟩

/-- C10: changing the search term never changes the selection, and
`selectedNote` is derived from the full list, not from the filtered view:
even when the search term excludes the selected note from `filteredNotes`,
`selectedNote` still returns it — in both variants. -/
theorem search_keeps_selection (t : String) (s : LocalApp.LocalState)
    (ss : SupaApp.SupaState) (n : LocalApp.Note) (m : SupaApp.SNote)
    (h1 : LocalApp.selectedNote s = some n)
    (h2 : n ∉ LocalApp.filteredNotes t s.notes)
    (h3 : SupaApp.selectedNote ss = some m)
    (h4 : m ∉ SupaApp.filteredNotes t ss.notes) :
    (LocalApp.setSearchTerm t s).selectedNoteId = s.selectedNoteId ∧
    LocalApp.selectedNote (LocalApp.setSearchTerm t s) = some n ∧
    (SupaApp.setSearchTerm t ss).selectedNoteId = ss.selectedNoteId ∧
    SupaApp.selectedNote (SupaApp.setSearchTerm t ss) = some m :=
  ⟨rfl, h1, rfl, h3⟩

/-- C10 witness: a note whose title and content avoid the term `"zzz"` is
filtered out of the visible list yet remains the selected note. -/
theorem search_keeps_selection_witness :
    (LocalApp.setSearchTerm "zzz"
      { notes := [{ id := "1", title := "a", content := "", created := 0, updated := 0 }]
        selectedNoteId := some "1", editing := false, searchTerm := "" }).selectedNoteId = some "1" ∧
    LocalApp.selectedNote (LocalApp.setSearchTerm "zzz"
      { notes := [{ id := "1", title := "a", content := "", created := 0, updated := 0 }]
        selectedNoteId := some "1", editing := false, searchTerm := "" }) =
      some { id := "1", title := "a", content := "", created := 0, updated := 0 } ∧
    (SupaApp.setSearchTerm "zzz"
      { notes := [{ id := "9", title := some "a", content := none, created := none, updated := "" }]
        selectedNoteId := some "9", editing := false, searchTerm := ""
        loading := false, error := none }).selectedNoteId = some "9" ∧
    SupaApp.selectedNote (SupaApp.setSearchTerm "zzz"
      { notes := [{ id := "9", title := some "a", content := none, created := none, updated := "" }]
        selectedNoteId := some "9", editing := false, searchTerm := ""
        loading := false, error := none }) =
      some { id := "9", title := some "a", content := none, created := none, updated := "" } :=
  search_keeps_selection "zzz" _ _ _ _ (by decide) (by decide) (by decide) (by decide)

/-- C8: a successful create prepends the confirmed note — titled
`"Untitled Note"` with empty content — selects it and enters editing, in
both variants; from the empty store the list then holds exactly that note.
The adapter-returned record of the adapter-backed variant is
`adapterCreate`, modelled from the spec. -/
theorem create_success_prepends (now : Nat) (fid nowIso : String)
    (sl : LocalApp.LocalState) (ss : SupaApp.SupaState) :
    (LocalApp.createNote now sl).notes =
      { id := toString now, title := "Untitled Note", content := ""
        created := now, updated := now } :: sl.notes ∧
    (LocalApp.createNote now sl).selectedNoteId = some (toString now) ∧
    (LocalApp.createNote now sl).editing = true ∧
    (SupaApp.createNote (.ok (SupaApp.adapterCreate fid nowIso)) ss).notes =
      SupaApp.adapterCreate fid nowIso :: ss.notes ∧
    (SupaApp.adapterCreate fid nowIso).title = some "Untitled Note" ∧
    (SupaApp.adapterCreate fid nowIso).content = some "" ∧
    (SupaApp.createNote (.ok (SupaApp.adapterCreate fid nowIso)) ss).selectedNoteId = some fid ∧
    (SupaApp.createNote (.ok (SupaApp.adapterCreate fid nowIso)) ss).editing = true ∧
    (LocalApp.createNote now LocalApp.init).notes =
      [{ id := toString now, title := "Untitled Note", content := ""
         created := now, updated := now }] ∧
    (SupaApp.createNote (.ok (SupaApp.adapterCreate fid nowIso)) SupaApp.init).notes =
      [SupaApp.adapterCreate fid nowIso] :=
  ⟨rfl, rfl, rfl, rfl, rfl, rfl, rfl, rfl, rfl, rfl⟩

/-- C7 counterexample: the claim asserts both `loadNotes` variants select
the first returned note when nothing was selected; the local-storage
variant never touches the selection, so loading a non-empty list into the
fresh state leaves `selectedNoteId` as `none`. -/
theorem load_local_no_autoselect :
    (LocalApp.loadNotes
        (some [{ id := "7", title := "t", content := "", created := 0, updated := 0 }])
        LocalApp.init).notes ≠ [] ∧
    (LocalApp.loadNotes
        (some [{ id := "7", title := "t", content := "", created := 0, updated := 0 }])
        LocalApp.init).selectedNoteId = none := by
  constructor
  · decide
  · rfl

/-- C7 (amended): `loadNotes` replaces the in-memory list with the
adapter-returned sequence in its order (given the adapter contract that
`created` is populated); in the adapter-backed variant, when no note was
selected, the first returned note (if any) becomes selected; the
local-storage variant replaces the list with the stored array and leaves
the selection unchanged. -/
theorem load_replaces_list (data : List SupaApp.SNote) (ss : SupaApp.SupaState)
    (stored : Option (List LocalApp.Note)) (sl : LocalApp.LocalState)
    (hc : ∀ n ∈ data, SupaApp.jsFalsy n.created = false) :
    (SupaApp.loadNotes (.ok data) ss).notes = data ∧
    (ss.selectedNoteId = none →
      (SupaApp.loadNotes (.ok data) ss).selectedNoteId = data.head?.map (fun n => n.id)) ∧
    (SupaApp.loadNotes (.ok data) ss).error = none ∧
    (LocalApp.loadNotes stored sl).notes = stored.getD [] ∧
    (LocalApp.loadNotes stored sl).selectedNoteId = sl.selectedNoteId := by
  have hmap : ∀ l : List SupaApp.SNote,
      (∀ n ∈ l, SupaApp.jsFalsy n.created = false) → l.map SupaApp.normalizeNote = l := by
    intro l hl
    induction l with
    | nil => rfl
    | cons a as ih =>
      simp only [List.map_cons]
      rw [ih fun n hn => hl n (List.mem_cons_of_mem _ hn)]
      have ha := hl a (List.mem_cons_self _ _)
      simp [SupaApp.normalizeNote, ha]
  have hmapd : data.map SupaApp.normalizeNote = data := hmap data hc
  refine ⟨?_, ?_, ?_, rfl, rfl⟩
  · simp only [SupaApp.loadNotes, hmapd]
    cases data <;> cases hb : SupaApp.jsFalsy ss.selectedNoteId <;> simp [hb]
  · intro hsel
    simp only [SupaApp.loadNotes, hmapd]
    cases data <;> simp [hsel, SupaApp.jsFalsy]
  · simp only [SupaApp.loadNotes, hmapd]
    cases data <;> cases hb : SupaApp.jsFalsy ss.selectedNoteId <;> simp [hb]

/-- C7 witness: loading a one-note list into the fresh adapter-backed state
selects that note; the local-storage load fills the list and keeps the
empty selection. -/
theorem load_replaces_list_witness :
    (∀ n ∈ [({ id := "3", title := some "t", content := some "", created := some "c", updated := "u" } : SupaApp.SNote)],
      SupaApp.jsFalsy n.created = false) ∧
    (SupaApp.loadNotes (.ok [{ id := "3", title := some "t", content := some "", created := some "c", updated := "u" }]) SupaApp.init).notes =
      [{ id := "3", title := some "t", content := some "", created := some "c", updated := "u" }] ∧
    (SupaApp.init.selectedNoteId = none →
      (SupaApp.loadNotes (.ok [{ id := "3", title := some "t", content := some "", created := some "c", updated := "u" }]) SupaApp.init).selectedNoteId =
        ([({ id := "3", title := some "t", content := some "", created := some "c", updated := "u" } : SupaApp.SNote)].head?.map (fun n => n.id))) ∧
    (SupaApp.loadNotes (.ok [{ id := "3", title := some "t", content := some "", created := some "c", updated := "u" }]) SupaApp.init).error = none ∧
    (LocalApp.loadNotes (some [{ id := "7", title := "t", content := "", created := 0, updated := 0 }]) LocalApp.init).notes =
      (some [({ id := "7", title := "t", content := "", created := 0, updated := 0 } : LocalApp.Note)]).getD [] ∧
    (LocalApp.loadNotes (some [{ id := "7", title := "t", content := "", created := 0, updated := 0 }]) LocalApp.init).selectedNoteId =
      LocalApp.init.selectedNoteId :=
  ⟨by decide,
    load_replaces_list
      [{ id := "3", title := some "t", content := some "", created := some "c", updated := "u" }]
      SupaApp.init
      (some [{ id := "7", title := "t", content := "", created := 0, updated := 0 }])
      LocalApp.init (by decide)⟩

/-- C6: a successful update changes only the targeted note — each supplied
field takes the supplied value, unsupplied fields are unchanged, and the
`updated` timestamp is refreshed — while every other note and the list
order are untouched (the positional correspondence is `List.Forall₂`).  The
adapter-backed side goes through `adapterUpdate`, modelled from the spec. -/
theorem update_frame (now : Nat) (nowIso : String) (id sid : String)
    (d : LocalApp.NotePatch) (ds : SupaApp.SNotePatch)
    (s : LocalApp.LocalState) (ss : SupaApp.SupaState) (m : SupaApp.SNote)
    (hex : ∃ n ∈ s.notes, n.id = id)
    (hm : ∀ k ∈ ss.notes, k.id = sid → k = m) :
    List.Forall₂ (fun n n2 =>
        (n.id ≠ id → n2 = n) ∧
        (n.id = id →
          n2.id = d.id.getD n.id ∧
          n2.title = d.title.getD n.title ∧
          n2.content = d.content.getD n.content ∧
          n2.created = d.created.getD n.created ∧
          n2.updated = now))
      s.notes (LocalApp.updateNote now id d s).notes ∧
    List.Forall₂ (fun n n2 =>
        (n.id ≠ sid → n2 = n) ∧
        (n.id = sid →
          n2.id = n.id ∧
          n2.created = n.created ∧
          n2.updated = nowIso ∧
          n2.title = (match ds.title with | some v => some v | none => n.title) ∧
          n2.content = (match ds.content with | some v => some v | none => n.content)))
      ss.notes (SupaApp.updateNote (.ok (SupaApp.adapterUpdate m ds nowIso)) sid ss).notes := by
  constructor
  · have hrw : (LocalApp.updateNote now id d s).notes
        = s.notes.map (fun n =>
            if n.id == id then { LocalApp.mergeNote n d with updated := now } else n) := rfl
    rw [hrw, List.forall₂_map_right_iff, List.forall₂_same]
    intro n _
    by_cases hni : n.id = id
    · refine ⟨fun hc => absurd hni hc, fun _ => ?_⟩
      simp [hni, LocalApp.mergeNote]
    · refine ⟨fun _ => ?_, fun hc => absurd hc hni⟩
      simp [hni]
  · have hrw : (SupaApp.updateNote (.ok (SupaApp.adapterUpdate m ds nowIso)) sid ss).notes
        = ss.notes.map (fun n =>
            if n.id == sid then SupaApp.adapterUpdate m ds nowIso else n) := rfl
    rw [hrw, List.forall₂_map_right_iff, List.forall₂_same]
    intro n hn
    by_cases hni : n.id = sid
    · have hnm : n = m := hm n hn hni
      subst hnm
      refine ⟨fun hc => absurd hni hc, fun _ => ?_⟩
      simp [hni, SupaApp.adapterUpdate]
    · refine ⟨fun _ => ?_, fun hc => absurd hc hni⟩
      simp [hni]

/-- C6 witness: updating note 1's title to `"X"` in a one-note store, in
both variants, realises the frame property at a concrete input. -/
theorem update_frame_witness :
    (∃ n ∈ [({ id := "1", title := "a", content := "c", created := 0, updated := 0 } : LocalApp.Note)],
      n.id = "1") ∧
    (∀ k ∈ [({ id := "9", title := some "a", content := none, created := none, updated := "u" } : SupaApp.SNote)],
      k.id = "9" → k = { id := "9", title := some "a", content := none, created := none, updated := "u" }) ∧
    (List.Forall₂ (fun n n2 =>
        (n.id ≠ "1" → n2 = n) ∧
        (n.id = "1" →
          n2.id = ({ title := some "X" } : LocalApp.NotePatch).id.getD n.id ∧
          n2.title = ({ title := some "X" } : LocalApp.NotePatch).title.getD n.title ∧
          n2.content = ({ title := some "X" } : LocalApp.NotePatch).content.getD n.content ∧
          n2.created = ({ title := some "X" } : LocalApp.NotePatch).created.getD n.created ∧
          n2.updated = 5))
      [({ id := "1", title := "a", content := "c", created := 0, updated := 0 } : LocalApp.Note)]
      (LocalApp.updateNote 5 "1" { title := some "X" }
        { notes := [{ id := "1", title := "a", content := "c", created := 0, updated := 0 }]
          selectedNoteId := none, editing := false, searchTerm := "" }).notes ∧
    List.Forall₂ (fun n n2 =>
        (n.id ≠ "9" → n2 = n) ∧
        (n.id = "9" →
          n2.id = n.id ∧
          n2.created = n.created ∧
          n2.updated = "i" ∧
          n2.title = (match ({ title := some "X" } : SupaApp.SNotePatch).title with
                      | some v => some v
                      | none => n.title) ∧
          n2.content = (match ({ title := some "X" } : SupaApp.SNotePatch).content with
                        | some v => some v
                        | none => n.content)))
      [({ id := "9", title := some "a", content := none, created := none, updated := "u" } : SupaApp.SNote)]
      (SupaApp.updateNote
        (.ok (SupaApp.adapterUpdate
          { id := "9", title := some "a", content := none, created := none, updated := "u" }
          { title := some "X" } "i")) "9"
        { notes := [{ id := "9", title := some "a", content := none, created := none, updated := "u" }]
          selectedNoteId := none, editing := false, searchTerm := ""
          loading := false, error := none }).notes) :=
  ⟨by decide, by decide,
    update_frame 5 "i" "1" "9" { title := some "X" } { title := some "X" }
      { notes := [{ id := "1", title := "a", content := "c", created := 0, updated := 0 }]
        selectedNoteId := none, editing := false, searchTerm := "" }
      { notes := [{ id := "9", title := some "a", content := none, created := none, updated := "u" }]
        selectedNoteId := none, editing := false, searchTerm := ""
        loading := false, error := none }
      { id := "9", title := some "a", content := none, created := none, updated := "u" }
      (by decide) (by decide)⟩

/-- The title of the note a given id designates, when one exists
(local variant), read off the in-memory list. -/
def titleOfL (id : String) (s : LocalApp.LocalState) : Option String :=
  (s.notes.find? fun n => n.id == id).map fun n => n.title

/-- The (nullable) title of the note a given id designates, when one exists
(adapter-backed variant). -/
def titleOfS (id : String) (ss : SupaApp.SupaState) : Option (Option String) :=
  (ss.notes.find? fun n => n.id == id).map fun n => n.title

/-- An id-preserving local update commutes with `find?` on the id. -/
theorem find_update_local (now : Nat) (id : String) (d : LocalApp.NotePatch)
    (hdi : d.id = none) (s : LocalApp.LocalState) :
    (LocalApp.updateNote now id d s).notes.find? (fun n => n.id == id) =
      ((s.notes.find? fun n => n.id == id).map
        fun n => if n.id == id then { LocalApp.mergeNote n d with updated := now } else n) := by
  have hrw : (LocalApp.updateNote now id d s).notes
      = s.notes.map (fun n =>
          if n.id == id then { LocalApp.mergeNote n d with updated := now } else n) := rfl
  rw [hrw, List.find?_map]
  have hp : ((fun n : LocalApp.Note => n.id == id) ∘ fun n =>
      if n.id == id then { LocalApp.mergeNote n d with updated := now } else n)
      = fun n : LocalApp.Note => n.id == id := by
    funext n
    by_cases hni : n.id = id
    · simp [Function.comp, hni, LocalApp.mergeNote, hdi]
    · simp [Function.comp, hni]
  rw [hp]

/-- Replacing the note at a given id by a record with that id commutes with
`find?` on the id (adapter-backed variant). -/
theorem find_update_supa (res m : SupaApp.SNote) (sid : String) (ss : SupaApp.SupaState)
    (hm : ss.notes.find? (fun k => k.id == sid) = some m) (hres : res.id = sid) :
    (SupaApp.updateNote (.ok res) sid ss).notes.find? (fun k => k.id == sid) = some res := by
  have hmb := List.find?_some hm
  have hmid : m.id = sid := by simpa using hmb
  have hrw : (SupaApp.updateNote (.ok res) sid ss).notes
      = ss.notes.map (fun n => if n.id == sid then res else n) := rfl
  rw [hrw, List.find?_map]
  have hp : ((fun k : SupaApp.SNote => k.id == sid) ∘ fun n => if n.id == sid then res else n)
      = fun k : SupaApp.SNote => k.id == sid := by
    funext n
    by_cases hni : n.id = sid
    · simp [Function.comp, hni, hres]
    · simp [Function.comp, hni]
  rw [hp, hm]
  simp [hmid]

/-- After a title update the designated note's title is the new value, and
the note is still found under its id. -/
theorem titleOfL_update_of_found (now : Nat) (id v : String) (n0 : LocalApp.Note)
    (s : LocalApp.LocalState)
    (h : s.notes.find? (fun n => n.id == id) = some n0) :
    titleOfL id (LocalApp.updateNote now id { title := some v } s) = some v ∧
    (LocalApp.updateNote now id { title := some v } s).notes.find? (fun n => n.id == id)
      = some { LocalApp.mergeNote n0 { title := some v } with updated := now } := by
  have hp0 : (n0.id == id) = true := by simpa using List.find?_some h
  have hfind2 : (LocalApp.updateNote now id { title := some v } s).notes.find?
      (fun n => n.id == id)
      = some { LocalApp.mergeNote n0 { title := some v } with updated := now } := by
    rw [find_update_local now id { title := some v } rfl s, h]
    simp only [Option.map_some']
    rw [if_pos hp0]
  exact ⟨by simp [titleOfL, hfind2, LocalApp.mergeNote], hfind2⟩

/-- C9: applying `update(id, {title := v})` twice yields the same final
title for the targeted note as applying it once (both variants; the
adapter-backed side goes through `adapterUpdate`, modelled from the spec). -/
theorem update_title_idempotent (now1 now2 : Nat) (iso1 iso2 : String)
    (id sid v : String) (s : LocalApp.LocalState) (ss : SupaApp.SupaState) (m : SupaApp.SNote)
    (hex : ∃ n ∈ s.notes, n.id = id)
    (hm : ss.notes.find? (fun k => k.id == sid) = some m) :
    titleOfL id (LocalApp.updateNote now2 id { title := some v }
        (LocalApp.updateNote now1 id { title := some v } s)) =
      titleOfL id (LocalApp.updateNote now1 id { title := some v } s) ∧
    titleOfL id (LocalApp.updateNote now1 id { title := some v } s) = some v ∧
    titleOfS sid (SupaApp.updateNote
        (.ok (SupaApp.adapterUpdate (SupaApp.adapterUpdate m { title := some v } iso1)
          { title := some v } iso2)) sid
        (SupaApp.updateNote (.ok (SupaApp.adapterUpdate m { title := some v } iso1)) sid ss)) =
      titleOfS sid (SupaApp.updateNote
        (.ok (SupaApp.adapterUpdate m { title := some v } iso1)) sid ss) ∧
    titleOfS sid (SupaApp.updateNote
        (.ok (SupaApp.adapterUpdate m { title := some v } iso1)) sid ss) = some (some v) := by
  obtain ⟨n0, hn0⟩ : ∃ n0, s.notes.find? (fun n => n.id == id) = some n0 := by
    obtain ⟨n, hn, hid2⟩ := hex
    have hsome : (s.notes.find? fun n => n.id == id).isSome := by
      rw [List.find?_isSome]
      exact ⟨n, hn, by simp [hid2]⟩
    exact Option.isSome_iff_exists.mp hsome
  obtain ⟨ht1, hf1⟩ := titleOfL_update_of_found now1 id v n0 s hn0
  obtain ⟨ht2, _⟩ := titleOfL_update_of_found now2 id v _ _ hf1
  have hmid : m.id = sid := by simpa using List.find?_some hm
  have hr1id : (SupaApp.adapterUpdate m { title := some v } iso1).id = sid := hmid
  have hf1s := find_update_supa (SupaApp.adapterUpdate m { title := some v } iso1) m sid ss hm hr1id
  have hf2s := find_update_supa
    (SupaApp.adapterUpdate (SupaApp.adapterUpdate m { title := some v } iso1)
      { title := some v } iso2)
    (SupaApp.adapterUpdate m { title := some v } iso1) sid _ hf1s hr1id
  refine ⟨ht2.trans ht1.symm, ht1, ?_, ?_⟩
  · rw [titleOfS, titleOfS, hf1s, hf2s]
    rfl
  · rw [titleOfS, hf1s]
    rfl

/-- C9 witness: in a one-note store the double title update agrees with the
single one at a concrete input, in both variants. -/
theorem update_title_idempotent_witness :
    (∃ n ∈ [({ id := "1", title := "a", content := "c", created := 0, updated := 0 } : LocalApp.Note)],
      n.id = "1") ∧
    ([({ id := "9", title := some "a", content := none, created := none, updated := "u" } : SupaApp.SNote)].find?
        (fun k => k.id == "9") =
      some { id := "9", title := some "a", content := none, created := none, updated := "u" }) ∧
    (titleOfL "1" (LocalApp.updateNote 6 "1" { title := some "X" }
        (LocalApp.updateNote 5 "1" { title := some "X" }
          { notes := [{ id := "1", title := "a", content := "c", created := 0, updated := 0 }]
            selectedNoteId := none, editing := false, searchTerm := "" })) =
      titleOfL "1" (LocalApp.updateNote 5 "1" { title := some "X" }
        { notes := [{ id := "1", title := "a", content := "c", created := 0, updated := 0 }]
          selectedNoteId := none, editing := false, searchTerm := "" }) ∧
    titleOfL "1" (LocalApp.updateNote 5 "1" { title := some "X" }
        { notes := [{ id := "1", title := "a", content := "c", created := 0, updated := 0 }]
          selectedNoteId := none, editing := false, searchTerm := "" }) = some "X" ∧
    titleOfS "9" (SupaApp.updateNote
        (.ok (SupaApp.adapterUpdate (SupaApp.adapterUpdate
            { id := "9", title := some "a", content := none, created := none, updated := "u" }
            { title := some "X" } "i1") { title := some "X" } "i2")) "9"
        (SupaApp.updateNote
          (.ok (SupaApp.adapterUpdate
            { id := "9", title := some "a", content := none, created := none, updated := "u" }
            { title := some "X" } "i1")) "9"
          { notes := [{ id := "9", title := some "a", content := none, created := none, updated := "u" }]
            selectedNoteId := none, editing := false, searchTerm := ""
            loading := false, error := none })) =
      titleOfS "9" (SupaApp.updateNote
        (.ok (SupaApp.adapterUpdate
          { id := "9", title := some "a", content := none, created := none, updated := "u" }
          { title := some "X" } "i1")) "9"
        { notes := [{ id := "9", title := some "a", content := none, created := none, updated := "u" }]
          selectedNoteId := none, editing := false, searchTerm := ""
          loading := false, error := none }) ∧
    titleOfS "9" (SupaApp.updateNote
        (.ok (SupaApp.adapterUpdate
          { id := "9", title := some "a", content := none, created := none, updated := "u" }
          { title := some "X" } "i1")) "9"
        { notes := [{ id := "9", title := some "a", content := none, created := none, updated := "u" }]
          selectedNoteId := none, editing := false, searchTerm := ""
          loading := false, error := none }) = some (some "X")) :=
  ⟨by decide, by decide,
    update_title_idempotent 5 6 "i1" "i2" "1" "9" "X"
      { notes := [{ id := "1", title := "a", content := "c", created := 0, updated := 0 }]
        selectedNoteId := none, editing := false, searchTerm := "" }
      { notes := [{ id := "9", title := some "a", content := none, created := none, updated := "u" }]
        selectedNoteId := none, editing := false, searchTerm := ""
        loading := false, error := none }
      { id := "9", title := some "a", content := none, created := none, updated := "u" }
      (by decide) (by decide)⟩

/-- A delete, confirmed or not, never adds notes (local variant). -/
theorem deleteNote_sublist_local (c : Bool) (id : String) (s : LocalApp.LocalState) :
    (LocalApp.deleteNote c id s).notes.Sublist s.notes := by
  cases c
  · exact List.Sublist.refl _
  · exact List.filter_sublist _

/-- A delete, whatever the confirmation and adapter outcome, never adds
notes (adapter-backed variant). -/
theorem deleteNote_sublist_supa (c : Bool) (res : Except String Unit) (id : String)
    (ss : SupaApp.SupaState) :
    ((SupaApp.deleteNote c res id ss).1).notes.Sublist ss.notes := by
  cases c
  · exact List.Sublist.refl _
  · cases res with
    | ok u => exact List.filter_sublist _
    | error msg => exact List.Sublist.refl _

/-- Invariant for local create/delete traces: if the already-present ids
are distinct and none of the upcoming create times renders to a present id,
distinct create times keep all ids pairwise distinct. -/
theorem lrunFrom_ids_nodup (ops : List LocalApp.LOp) :
    ∀ s : LocalApp.LocalState,
      (s.notes.map (fun n => n.id)).Nodup →
      (LocalApp.ltimes ops).Nodup →
      (∀ t ∈ LocalApp.ltimes ops, toString t ∉ s.notes.map (fun n => n.id)) →
      ((LocalApp.lrunFrom s ops).notes.map (fun n => n.id)).Nodup := by
  induction ops with
  | nil => intro s h _ _; exact h
  | cons op rest ih =>
    intro s hs ht hfresh
    cases op with
    | create now =>
      have hstep : LocalApp.lrunFrom s (LocalApp.LOp.create now :: rest)
          = LocalApp.lrunFrom (LocalApp.createNote now s) rest := rfl
      rw [hstep]
      have htimes : LocalApp.ltimes (LocalApp.LOp.create now :: rest)
          = now :: LocalApp.ltimes rest := rfl
      rw [htimes] at ht hfresh
      have hnotin : now ∉ LocalApp.ltimes rest := (List.nodup_cons.mp ht).1
      have hids : ((LocalApp.createNote now s).notes.map (fun n => n.id))
          = toString now :: s.notes.map (fun n => n.id) := rfl
      apply ih
      · rw [hids, List.nodup_cons]
        exact ⟨hfresh now (List.mem_cons_self _ _), hs⟩
      · exact (List.nodup_cons.mp ht).2
      · intro t htmem
        rw [hids]
        intro hmem
        rcases List.mem_cons.mp hmem with heq | hmem2
        · have htn : t = now := natToString_injective heq
          exact hnotin (htn ▸ htmem)
        · exact hfresh t (List.mem_cons_of_mem _ htmem) hmem2
    | delete c id =>
      have hstep : LocalApp.lrunFrom s (LocalApp.LOp.delete c id :: rest)
          = LocalApp.lrunFrom (LocalApp.deleteNote c id s) rest := rfl
      rw [hstep]
      have hsub : ((LocalApp.deleteNote c id s).notes.map (fun n => n.id)).Sublist
          (s.notes.map (fun n => n.id)) :=
        (deleteNote_sublist_local c id s).map _
      apply ih
      · exact hs.sublist hsub
      · exact ht
      · intro t htmem hmem
        exact hfresh t htmem (hsub.subset hmem)

/-- Invariant for adapter-backed create/delete traces: distinct
adapter-assigned ids keep all ids pairwise distinct. -/
theorem srunFrom_ids_nodup (ops : List SupaApp.SOp) :
    ∀ ss : SupaApp.SupaState,
      (ss.notes.map (fun n => n.id)).Nodup →
      (SupaApp.screatedIds ops).Nodup →
      (∀ i ∈ SupaApp.screatedIds ops, i ∉ ss.notes.map (fun n => n.id)) →
      ((SupaApp.srunFrom ss ops).notes.map (fun n => n.id)).Nodup := by
  induction ops with
  | nil => intro ss h _ _; exact h
  | cons op rest ih =>
    intro ss hs ht hfresh
    cases op with
    | create res =>
      cases res with
      | ok note =>
        have hstep : SupaApp.srunFrom ss (SupaApp.SOp.create (.ok note) :: rest)
            = SupaApp.srunFrom (SupaApp.createNote (.ok note) ss) rest := rfl
        rw [hstep]
        have hcr : SupaApp.screatedIds (SupaApp.SOp.create (.ok note) :: rest)
            = note.id :: SupaApp.screatedIds rest := rfl
        rw [hcr] at ht hfresh
        have hids : ((SupaApp.createNote (.ok note) ss).notes.map (fun n => n.id))
            = note.id :: ss.notes.map (fun n => n.id) := rfl
        apply ih
        · rw [hids, List.nodup_cons]
          exact ⟨hfresh note.id (List.mem_cons_self _ _), hs⟩
        · exact (List.nodup_cons.mp ht).2
        · intro i himem
          rw [hids]
          intro hmem
          rcases List.mem_cons.mp hmem with heq | hmem2
          · exact (List.nodup_cons.mp ht).1 (heq ▸ himem)
          · exact hfresh i (List.mem_cons_of_mem _ himem) hmem2
      | error msg =>
        have hstep : SupaApp.srunFrom ss (SupaApp.SOp.create (.error msg) :: rest)
            = SupaApp.srunFrom (SupaApp.createNote (.error msg) ss) rest := rfl
        rw [hstep]
        exact ih _ hs ht hfresh
    | delete c res id =>
      have hstep : SupaApp.srunFrom ss (SupaApp.SOp.delete c res id :: rest)
          = SupaApp.srunFrom ((SupaApp.deleteNote c res id ss).1) rest := rfl
      rw [hstep]
      have hsub : (((SupaApp.deleteNote c res id ss).1).notes.map (fun n => n.id)).Sublist
          (ss.notes.map (fun n => n.id)) :=
        (deleteNote_sublist_supa c res id ss).map _
      apply ih
      · exact hs.sublist hsub
      · exact ht
      · intro i himem hmem
        exact hfresh i himem (hsub.subset hmem)

/-- C1 counterexample: two local-storage creates that observe the same
`Date.now()` value (two clicks within the same millisecond) produce two
notes with the same id `"5"`, so the ids are not pairwise distinct. -/
theorem create_same_time_dup_ids :
    ¬ (((LocalApp.lrun [LocalApp.LOp.create 5, LocalApp.LOp.create 5]).notes.map
        (fun n => n.id)).Nodup) := by
  decide

/-- C1 (amended): for every sequence of create and delete operations from
the empty store, the note ids are pairwise distinct, provided the
`Date.now()` values observed by the local-storage creates are pairwise
distinct, and the ids the adapter assigns to successful creates are
pairwise distinct (its contract). -/
theorem create_delete_ids_distinct (lops : List LocalApp.LOp) (sops : List SupaApp.SOp)
    (ht : (LocalApp.ltimes lops).Nodup) (hi : (SupaApp.screatedIds sops).Nodup) :
    ((LocalApp.lrun lops).notes.map (fun n => n.id)).Nodup ∧
    ((SupaApp.srun sops).notes.map (fun n => n.id)).Nodup := by
  constructor
  · exact lrunFrom_ids_nodup lops LocalApp.init List.nodup_nil ht
      (fun t _ hmem => by simp [LocalApp.init] at hmem)
  · exact srunFrom_ids_nodup sops SupaApp.init List.nodup_nil hi
      (fun i _ hmem => by simp [SupaApp.init] at hmem)

/-- C1 witness: a concrete trace — two creates at distinct times and a
confirmed delete (local variant); a successful create, a failed create and
a confirmed delete (adapter variant) — ends with pairwise distinct ids. -/
theorem create_delete_ids_distinct_witness :
    ((LocalApp.ltimes [LocalApp.LOp.create 5, LocalApp.LOp.create 6,
        LocalApp.LOp.delete true "5"]).Nodup ∧
      (SupaApp.screatedIds [SupaApp.SOp.create
          (.ok { id := "n1", title := some "t", content := some "", created := none, updated := "u" }),
        SupaApp.SOp.create (.error "boom"),
        SupaApp.SOp.delete true (.ok ()) "n1"]).Nodup) ∧
    ((LocalApp.lrun [LocalApp.LOp.create 5, LocalApp.LOp.create 6,
        LocalApp.LOp.delete true "5"]).notes.map (fun n => n.id)).Nodup ∧
    ((SupaApp.srun [SupaApp.SOp.create
          (.ok { id := "n1", title := some "t", content := some "", created := none, updated := "u" }),
        SupaApp.SOp.create (.error "boom"),
        SupaApp.SOp.delete true (.ok ()) "n1"]).notes.map (fun n => n.id)).Nodup :=
  ⟨⟨by decide, by decide⟩,
    create_delete_ids_distinct
      [LocalApp.LOp.create 5, LocalApp.LOp.create 6, LocalApp.LOp.delete true "5"]
      [SupaApp.SOp.create
          (.ok { id := "n1", title := some "t", content := some "", created := none, updated := "u" }),
        SupaApp.SOp.create (.error "boom"),
        SupaApp.SOp.delete true (.ok ()) "n1"]
      (by decide) (by decide)⟩
